import Mathlib

/-
Shallow embedding of `src/ds_mqtt_manager.h` (class MQTT_manager).

Modelling conventions:
- C byte strings are `List Nat` (each element a byte value); a buffer is read
  back as a C string by truncating at the first NUL byte (`cstr`).
- Lean `String` is used where the code only concatenates and compares whole
  strings (topics, payload fields of the outbound message).
- `millis()` is a `Nat` argument; `unsigned long` subtraction is 32-bit
  wraparound subtraction (`usub32`).  Each modelled call reads the clock once.
- `static` function-local state is passed explicitly (last reconnect attempt,
  last broadcast timestamp, hardware fault state).
- Callbacks are opaque: the model records which callback the code invokes as
  an event (`Ev`), instead of running it.  Null-checks on the per-prop
  callback slots become `Bool` presence flags.
-/

namespace DsMqtt

/-- ASCII byte list of a Lean string, modelling the contents of a C string. -/
def ascii (s : String) : List Nat := s.data.map Char.toNat

/-- Decode a byte list back into a string (all bytes are below 256 in our uses). -/
def decodeAscii (l : List Nat) : String := String.mk (l.map Char.ofNat)

/-- Modulus of `unsigned long` (32-bit) arithmetic on the target platform. -/
def UINT32 : Nat := 4294967296

/-- Wraparound difference `now - last` as computed on `unsigned long` values. -/
def usub32 (now last : Nat) : Nat := (now + UINT32 - last) % UINT32

/-- Read a buffer as a C string: the bytes before the first NUL. -/
def cstr (l : List Nat) : List Nat := l.takeWhile (fun b => b != 0)

/-- Underscore-to-space substitution on one byte (body of the while loop in
`_sendInfoLoop`, which edits bytes equal to 95 into 32). -/
def substByte (b : Nat) : Nat := if b = 95 then 32 else b

/-- Line 289 of the source: `propERP_Name[0] -= 32`, a byte-level subtraction
by 32 (mod 256) on the first byte of the name buffer. -/
def ucFirst : List Nat → List Nat
  | [] => []
  | b :: rest => (b + 224) % 256 :: rest

/-- Lines 291-296 of the source: the `while (*temp)` loop that replaces every
underscore byte by a space, stopping at the first NUL byte. -/
def substUnderscores : List Nat → List Nat
  | [] => []
  | b :: rest => if b = 0 then b :: rest else substByte b :: substUnderscores rest

/-- The display-name derivation of `_sendInfoLoop`: the id is copied into a
32-byte zeroed buffer (`propERP_Name`), the first byte is decremented by 32,
then the underscore loop runs over the buffer. -/
def deriveNameBuf (id : List Nat) : List Nat :=
  substUnderscores (ucFirst (id ++ List.replicate (32 - id.length) 0))

/-- Follows the words of the specification (section 4.5) for comparison with
`deriveNameBuf`: copy the id, substitute every underscore with a space, and
only then uppercase the first character by the byte-level minus-32 shift. -/
def specNameDerivation (id : List Nat) : List Nat :=
  ucFirst (id.map substByte)

/-- Model of `MQTT_manager::_msgInfo`: builds the status payload by successive
`strcat` calls into `msgData`; when `strId[0] == '_'` it returns with the
buffer untouched.  `itoa(number, _, 10)` is decimal rendering of the int. -/
def msgInfo (msgData strId ERP_name strStatus : String) (number : Int) : String :=
  if strId.data.head? = some '_' then msgData
  else "\x7b" ++ "\"strId\":\"" ++ strId ++ "\", " ++
       "\"strName\":\"" ++ ERP_name ++ "\", " ++
       "\"strStatus\":\"" ++ strStatus ++ "\", " ++
       "\"number\":\"" ++ toString number ++ "\"" ++ "\x7d"

/-- The per-prop body of the loop in `_sendInfoLoop`: for each prop (paired
with its current state string, both arrays indexed together) a fresh zeroed
message buffer is formatted and published to the broadcast topic.  The
published (topic, payload) pairs are returned in loop order. -/
def infoMessages : List (String × Int) → List String → List (String × String)
  | (id, num) :: props, st :: states =>
      ("/er/riddles/info",
        msgInfo "" id (decodeAscii (cstr (deriveNameBuf (ascii id)))) st num)
        :: infoMessages props states
  | _, _ => []

/-- Model of `MQTT_manager::_sendInfoLoop`: returns early when at most 1000 ms
elapsed since `lastTS` (the static timestamp), otherwise publishes one message
per prop and updates the timestamp.  Result: (new lastTS, published pairs). -/
def sendInfoLoop (lastTS now : Nat) (props : List (String × Int))
    (states : List String) : Nat × List (String × String) :=
  if usub32 now lastTS ≤ 1000 then (lastTS, [])
  else (now, infoMessages props states)

/-- Topics subscribed by `MQTT_manager::_onConnected`: every prop command
topic in registry order, then the global command topic. -/
def onConnectedTopics (ids : List String) : List String :=
  (ids.map fun id => "/er/" ++ id ++ "/cmd") ++ ["/er/cmd"]

/-- Result of one `_check` call: the new `_lastReconnectAttempt`, whether a
connect attempt was issued, and the topics subscribed (nonempty only when the
attempt succeeded and `_onConnected` ran). -/
structure CheckResult where
  lastReconnectAttempt : Nat
  attempted : Bool
  subscribed : List String
  deriving DecidableEq

/-- Model of `MQTT_manager::_check`.  `hwOk` abstracts `_hardware_status()`
returning zero; `connected` is `_client.connected()`; `connectSucceeds` is the
outcome of `_client.connect` inside `_reconnect`.  On a failed attempt the
timestamp keeps the attempt time; on success it is reset to 0. -/
def check (lastAtt : Nat) (hwOk connected : Bool) (now : Nat)
    (connectSucceeds : Bool) (ids : List String) : CheckResult :=
  if hwOk = false then ⟨lastAtt, false, []⟩
  else if connected then ⟨lastAtt, false, []⟩
  else if usub32 now lastAtt > 5000 then
    if connectSucceeds then ⟨0, true, onConnectedTopics ids⟩
    else ⟨now, true, []⟩
  else ⟨lastAtt, false, []⟩

/-- Run a sequence of `_check` calls while the hardware is up and the client
stays disconnected; each element is (call time, whether connect would
succeed).  Returns the final timestamp and the times of issued attempts. -/
def runChecks : Nat → List (Nat × Bool) → Nat × List Nat
  | lastAtt, [] => (lastAtt, [])
  | lastAtt, (now, ok) :: rest =>
    let r := check lastAtt true false now ok []
    let p := runChecks r.lastReconnectAttempt rest
    (p.1, (if r.attempted then [now] else []) ++ p.2)

/-- The `static` state of `_hardware_status`: `last_status` and
`last_time_stamp`. -/
structure HWState where
  last_status : Bool
  last_time_stamp : Nat
  deriving DecidableEq

/-- The state after static initialization at the first call, whose
`last_time_stamp` is `millis()` at that moment. -/
def HWState.init (now : Nat) : HWState := ⟨true, now⟩

/-- Model of `MQTT_manager::_hardware_status`: checks adapter presence then
link status, each fault logging its diagnostic only when more than 1000 ms
elapsed since `last_time_stamp`; the Ok path logs the restore line when the
previous call observed a fault.  Result: (new state, return code, log lines).
-/
def hardware_status (st : HWState) (now : Nat) (hwPresent linkUp : Bool) :
    HWState × Int × List String :=
  if hwPresent = false then
    if usub32 now st.last_time_stamp > 1000 then
      (⟨false, now⟩, -1, ["ethernet module missing"])
    else (⟨false, st.last_time_stamp⟩, -1, [])
  else if linkUp = false then
    if usub32 now st.last_time_stamp > 1000 then
      (⟨false, now⟩, -1, ["LAN cable missing"])
    else (⟨false, st.last_time_stamp⟩, -1, [])
  else if st.last_status = false then
    (⟨true, st.last_time_stamp⟩, 0, ["ethernet hardware is restored"])
  else (⟨true, st.last_time_stamp⟩, 0, [])

/-- Run a sequence of `_hardware_status` calls; each element of the list is
(call time, adapter present, link up).  Log lines are tagged with the time of
the call that emitted them. -/
def runHW : HWState → List (Nat × Bool × Bool) → HWState × List (Nat × String)
  | st, [] => (st, [])
  | st, (now, hw, link) :: rest =>
    let r := hardware_status st now hw link
    let p := runHW r.1 rest
    (p.1, r.2.2.map (fun m => (now, m)) ++ p.2)

/-- The three per-prop callback slots (`prop_cb_types`). -/
inductive CBKind
  | activate
  | finish
  | reset
  deriving DecidableEq

/-- Observable invocations made by the inbound dispatch lambda. -/
inductive Ev
  | propCB (i : Nat) (k : CBKind)
  | roomStart
  | roomReset
  | fallback (topic : String) (payload : List Nat) (len : Nat)
  deriving DecidableEq

/-- The C string the dispatch lambda compares payloads against: a NUL is
written at `payload[length]`, then the buffer is read as a C string. -/
def pstrOf (payload : List Nat) (len : Nat) : List Nat :=
  ((payload.set len 0).take len).takeWhile (fun b => b != 0)

/-- The `for` loop of the dispatch lambda (lines 129-150): per prop, build its
command topic and compare; on a topic match test the three recognized
payloads, each returning after an invocation guarded by a null check; an
unrecognized payload lets the loop continue.  `some evs` models a `return`
reached inside the loop (with the invocations performed), `none` models
falling off the end of the loop.  `i` is the running prop index. -/
def dispatchLoop (topic : String) (pstr : List Nat) :
    List (String × (Bool × Bool × Bool)) → Nat → Option (List Ev)
  | [], _ => none
  | (id, cbs) :: rest, i =>
    if topic = "/er/" ++ id ++ "/cmd" then
      if pstr = ascii "activate" then
        some (if cbs.1 then [Ev.propCB i CBKind.activate] else [])
      else if pstr = ascii "finish" then
        some (if cbs.2.1 then [Ev.propCB i CBKind.finish] else [])
      else if pstr = ascii "reset" then
        some (if cbs.2.2 then [Ev.propCB i CBKind.reset] else [])
      else dispatchLoop topic pstr rest (i + 1)
    else dispatchLoop topic pstr rest (i + 1)

/-- `memset(payload, 0, length)`: zero the first `len` bytes of a buffer. -/
def memsetZero : Nat → List Nat → List Nat
  | _, [] => []
  | 0, l => l
  | n + 1, _ :: rest => 0 :: memsetZero n rest

/-- Model of the whole inbound dispatch lambda installed by `setCallback`:
NUL-terminate the payload, run the prop loop, on fall-through test the global
command topic, then the optional fallback (`special_CB`, presence modelled by
`hasSpecial`) followed by `memset` of the payload.  Result: (invocations in
order, final payload buffer). -/
def dispatch (props : List (String × (Bool × Bool × Bool))) (topic : String)
    (payload : List Nat) (len : Nat) (hasSpecial : Bool) : List Ev × List Nat :=
  let buf := payload.set len 0
  let pstr := pstrOf payload len
  match dispatchLoop topic pstr props 0 with
  | some evs => (evs, buf)
  | none =>
    if topic = "/er/cmd" ∧ pstr = ascii "start" then ([Ev.roomStart], buf)
    else if topic = "/er/cmd" ∧ pstr = ascii "reset" then ([Ev.roomReset], buf)
    else ((if hasSpecial then [Ev.fallback topic buf len] else []),
          memsetZero len buf)

/-- A prop command matched: the topic equals some registered prop's command
topic and the payload C string is one of the three recognized commands. -/
def propCmdMatched (props : List (String × (Bool × Bool × Bool)))
    (topic : String) (pstr : List Nat) : Prop :=
  (∃ p ∈ props, topic = "/er/" ++ p.1 ++ "/cmd") ∧
    (pstr = ascii "activate" ∨ pstr = ascii "finish" ∨ pstr = ascii "reset")

/-- A global command matched: the global topic with one of its two payloads. -/
def globalCmdMatched (topic : String) (pstr : List Nat) : Prop :=
  topic = "/er/cmd" ∧ (pstr = ascii "start" ∨ pstr = ascii "reset")

theorem str_append_assoc (a b c : String) : a ++ b ++ c = a ++ (b ++ c) := by
  apply String.ext
  simp [String.data_append, List.append_assoc]

theorem usub32_eq (now last : Nat) (h1 : last ≤ now) (h2 : now < UINT32) :
    usub32 now last = now - last := by
  unfold usub32 UINT32 at *
  omega

theorem topic_ne_global (id : String) :
    ("/er/" ++ id ++ "/cmd" : String) ≠ "/er/cmd" := by
  intro h
  have h2 := congrArg String.length h
  have e1 : ("/er/" : String).length = 4 := rfl
  have e2 : ("/cmd" : String).length = 4 := rfl
  have e3 : ("/er/cmd" : String).length = 7 := rfl
  simp [String.length_append, e1, e2, e3] at h2
  omega

/-- Claim C6: the status formatter is a pure function whose output has the
fixed field order strId, strName, strStatus, number, with the number rendered
as decimal text inside quotes; on ("box", "Box", "Activated", 2) it yields
exactly the documented string. -/
theorem formatter_fixed_fields :
    (∀ (id name st : String) (n : Int), id.data.head? ≠ some '_' →
      msgInfo "" id name st n =
        "\x7b\"strId\":\"" ++ id ++ "\", \"strName\":\"" ++ name ++
          "\", \"strStatus\":\"" ++ st ++ "\", \"number\":\"" ++ toString n ++
          "\"\x7d") ∧
    msgInfo "" "box" "Box" "Activated" 2 =
      "\x7b\"strId\":\"box\", \"strName\":\"Box\", \"strStatus\":\"Activated\", \"number\":\"2\"\x7d" := by
  constructor
  · intro id name st n h
    simp only [msgInfo]
    rw [if_neg h]
    have e1 : ("\x7b\"strId\":\"" : String) = "\x7b" ++ "\"strId\":\"" := rfl
    have e2 : ("\", \"strName\":\"" : String) = "\", " ++ "\"strName\":\"" := rfl
    have e3 : ("\", \"strStatus\":\"" : String) = "\", " ++ "\"strStatus\":\"" := rfl
    have e4 : ("\", \"number\":\"" : String) = "\", " ++ "\"number\":\"" := rfl
    have e5 : ("\"\x7d" : String) = "\"" ++ "\x7d" := rfl
    rw [e1, e2, e3, e4, e5]
    simp only [str_append_assoc]
  · decide

/-- Witness for C6 at a concrete non-reserved id. -/
theorem formatter_fixed_fields_witness :
    msgInfo "" "q" "Q" "S" (-7) =
      "\x7b\"strId\":\"q\", \"strName\":\"Q\", \"strStatus\":\"S\", \"number\":\"-7\"\x7d" := by
  have h := formatter_fixed_fields.1 "q" "Q" "S" (-7) (by decide)
  rw [h]
  rfl

/-- Counterexample to claim C1: a prop whose display index is negative is not
skipped by the broadcast loop; its full status message is published. -/
theorem negative_number_still_published :
    sendInfoLoop 0 2000 [("box", -2)] ["Ready"] =
      (2000, [("/er/riddles/info",
        "\x7b\"strId\":\"box\", \"strName\":\"Box\", \"strStatus\":\"Ready\", \"number\":\"-2\"\x7d")]) := by
  decide

/-- Claim C1 as amended: only the reserved prefix excludes a prop, and the
exclusion empties the payload rather than suppressing the publish: for every
prop whose stringId begins with the underscore, the pair published for it on
the broadcast topic carries the empty payload. -/
theorem underscore_prefix_empty_payload :
    ∀ (props : List (String × Int)) (states : List String) (i : Nat)
      (id : String) (num : Int),
      props[i]? = some (id, num) → i < states.length →
      id.data.head? = some '_' →
      (infoMessages props states)[i]? = some ("/er/riddles/info", "") := by
  intro props
  induction props with
  | nil =>
    intro states i id num h1 _ _
    simp at h1
  | cons p ps ih =>
    intro states i id num h1 h2 h3
    obtain ⟨pid, pnum⟩ := p
    cases states with
    | nil => simp at h2
    | cons st sts =>
      cases i with
      | zero =>
        simp only [List.getElem?_cons_zero, Option.some.injEq, Prod.mk.injEq] at h1
        obtain ⟨rfl, rfl⟩ := h1
        simp [infoMessages, msgInfo, h3]
      | succ n =>
        simp only [List.getElem?_cons_succ] at h1
        simp only [infoMessages, List.getElem?_cons_succ]
        exact ih sts n id num h1 (by simpa using h2) h3

/-- Witness for the amended C1 on a concrete registry. -/
theorem underscore_prefix_empty_payload_witness :
    (infoMessages [("_mokka", 8)] ["Ready"])[0]? =
      some ("/er/riddles/info", "") := by
  exact underscore_prefix_empty_payload [("_mokka", 8)] ["Ready"] 0 "_mokka" 8
    (by decide) (by decide) (by decide)

/-- Claim C5: when a call of the status broadcast at time t1 publishes its
batch, a second call at any t2 within 1000 ms returns immediately: it keeps
the stored timestamp and publishes nothing. -/
theorem broadcast_rate_limit :
    ∀ (lastTS t1 t2 : Nat) (props : List (String × Int)) (states : List String),
      usub32 t1 lastTS > 1000 → t1 ≤ t2 → t2 ≤ t1 + 1000 → t2 < UINT32 →
      sendInfoLoop lastTS t1 props states = (t1, infoMessages props states) ∧
      sendInfoLoop t1 t2 props states = (t1, []) := by
  intro lastTS t1 t2 props states h1 h2 h3 h4
  have e : usub32 t2 t1 = t2 - t1 := by
    unfold usub32 UINT32
    omega
  constructor
  · simp only [sendInfoLoop]
    rw [if_neg (by omega)]
  · simp only [sendInfoLoop]
    rw [if_pos (by omega)]

/-- Witness for C5 on concrete call times 1500 and 2000. -/
theorem broadcast_rate_limit_witness :
    sendInfoLoop 0 1500 [("box", 1)] ["s"] =
      (1500, infoMessages [("box", 1)] ["s"]) ∧
    sendInfoLoop 1500 2000 [("box", 1)] ["s"] = (1500, []) := by
  exact broadcast_rate_limit 0 1500 2000 [("box", 1)] ["s"]
    (by decide) (by decide) (by decide) (by decide)

/-- Claim C4: after a failed connect attempt at time T (the stored timestamp),
a run of periodic checks while disconnected with the link up makes no new
attempt at any check time up to T+5000, and the first check strictly after
T+5000 makes the one new attempt. -/
theorem reconnect_retry_interval :
    ∀ (T t : Nat) (c : Bool) (pre : List Nat),
      (∀ x ∈ pre, T ≤ x ∧ x ≤ T + 5000) →
      T + 5000 < t → t < UINT32 →
      runChecks T (pre.map (fun x => (x, false)) ++ [(t, c)]) =
        (if c then 0 else t, [t]) := by
  intro T t c pre
  induction pre with
  | nil =>
    intro _ h2 h3
    have e : usub32 t T = t - T := usub32_eq t T (by omega) h3
    simp only [List.map_nil, List.nil_append, runChecks, check, e]
    rw [if_neg (by simp), if_neg (by simp), if_pos (by omega)]
    cases c <;> simp [runChecks]
  | cons x pre ih =>
    intro h1 h2 h3
    have hx := h1 x (by simp)
    have e : usub32 x T = x - T := usub32_eq x T (by omega) (by omega)
    have ihh := ih (fun y hy => h1 y (by simp [hy])) h2 h3
    simp only [List.map_cons, List.cons_append, runChecks, check, e]
    rw [if_neg (by simp), if_neg (by simp), if_neg (by omega)]
    simpa using ihh

/-- Witness for C4: a failed attempt at T = 1000, checks at 1500 and at the
boundary 6000 are silent, the check at 7000 issues the single new attempt. -/
theorem reconnect_retry_interval_witness :
    runChecks 1000 [(1500, false), (6000, false), (7000, false)] =
      (7000, [7000]) := by
  have h := reconnect_retry_interval 1000 7000 false [1500, 6000]
    (by decide) (by decide) (by decide)
  simpa using h

/-- Claim C8: a check that issues a successful connect attempt subscribes to
every prop command topic in registry order followed by the global command
topic, and resets the retry timestamp to 0, after which a later check while
disconnected attempts again at any time strictly past 5000, without waiting
5000 ms from the successful attempt. -/
theorem reconnect_success_resubscribes_resets_timer :
    ∀ (last now : Nat) (ids : List String),
      usub32 now last > 5000 →
      check last true false now true ids =
        ⟨0, true, (ids.map fun id => "/er/" ++ id ++ "/cmd") ++ ["/er/cmd"]⟩ ∧
      ∀ (now2 : Nat) (c2 : Bool) (ids2 : List String),
        5000 < now2 → now2 < UINT32 →
        (check 0 true false now2 c2 ids2).attempted = true := by
  intro last now ids h1
  constructor
  · simp only [check, onConnectedTopics]
    rw [if_neg (by simp), if_neg (by simp), if_pos h1]
    simp
  · intro now2 c2 ids2 h2 h3
    have e : usub32 now2 0 = now2 := by
      rw [usub32_eq now2 0 (by omega) h3]
      omega
    simp only [check, e]
    rw [if_neg (by simp), if_neg (by simp), if_pos (by omega)]
    cases c2 <;> simp

/-- Witness for C8 with one registered prop and a quick follow-up check. -/
theorem reconnect_success_resubscribes_resets_timer_witness :
    check 100 true false 9000 true ["box"] =
      ⟨0, true, ["/er/box/cmd", "/er/cmd"]⟩ ∧
    (check 0 true false 9500 false []).attempted = true := by
  have h := reconnect_success_resubscribes_resets_timer 100 9000 ["box"] (by decide)
  exact ⟨by simpa using h.1, h.2 9500 false [] (by decide) (by decide)⟩

theorem substByte_ne_zero (b : Nat) (hb : b ≠ 0) : substByte b ≠ 0 := by
  unfold substByte
  split <;> omega

theorem cstr_cons_ne (b : Nat) (l : List Nat) (hb : b ≠ 0) :
    cstr (b :: l) = b :: cstr l := by
  simp [cstr, List.takeWhile_cons, hb]

theorem cstr_substUnderscores (l : List Nat) :
    cstr (substUnderscores l) = (cstr l).map substByte := by
  induction l with
  | nil => rfl
  | cons b rest ih =>
    by_cases hb : b = 0
    · subst hb
      simp [substUnderscores, cstr, List.takeWhile_cons]
    · simp only [cstr] at ih ⊢
      simp [substUnderscores, hb, List.takeWhile_cons,
        substByte_ne_zero b hb, ih]

theorem cstr_map_substByte (l : List Nat) :
    cstr (l.map substByte) = (cstr l).map substByte := by
  induction l with
  | nil => rfl
  | cons b rest ih =>
    by_cases hb : b = 0
    · subst hb
      simp [cstr, List.takeWhile_cons, substByte]
    · simp only [cstr] at ih ⊢
      simp [List.takeWhile_cons, hb, substByte_ne_zero b hb, ih]

theorem cstr_append_replicate_zero (l : List Nat) (n : Nat) :
    cstr (l ++ List.replicate n 0) = cstr l := by
  induction l with
  | nil =>
    cases n <;> simp [cstr, List.replicate, List.takeWhile_cons]
  | cons b rest ih =>
    by_cases hb : b = 0
    · subst hb
      simp [cstr, List.takeWhile_cons]
    · simp only [cstr] at ih ⊢
      simp [List.takeWhile_cons, hb, ih]

/-- Counterexample to claim C3: the code uppercases the first byte before
substituting underscores, not after.  For an id whose first byte is 127 the
two orders differ, and the broadcast uses the code's order: the emitted
strName is " a b", while the claimed substitute-then-uppercase order yields
"_a b". -/
theorem name_derivation_order_differs :
    cstr (deriveNameBuf (ascii "\x7fa_b")) = ascii " a b" ∧
    cstr (specNameDerivation (ascii "\x7fa_b")) = ascii "_a b" ∧
    infoMessages [("\x7fa_b", 1)] ["S"] =
      [("/er/riddles/info",
        "\x7b\"strId\":\"\x7fa_b\", \"strName\":\" a b\", \"strStatus\":\"S\", \"number\":\"1\"\x7d")] := by
  refine ⟨by decide, by decide, by decide⟩

/-- Claim C3 as amended: the display name is derived by copying the stringId,
uppercasing the first byte by the byte-level minus-32 shift, and then
substituting underscores with spaces, in that order; this agrees with the
claimed substitute-first order whenever the leading byte is neither an
underscore (95) nor 127, and for the id "yammy_choco" the broadcast carries
the display name "Yammy choco". -/
theorem name_derivation_amended :
    (∀ (id : List Nat) (c : Nat), id.head? = some c → c < 256 → c ≠ 95 →
      c ≠ 127 → cstr (deriveNameBuf id) = cstr (specNameDerivation id)) ∧
    infoMessages [("yammy_choco", 5)] ["Ready"] =
      [("/er/riddles/info",
        "\x7b\"strId\":\"yammy_choco\", \"strName\":\"Yammy choco\", \"strStatus\":\"Ready\", \"number\":\"5\"\x7d")] := by
  constructor
  · intro id c hc h256 h95 h127
    cases id with
    | nil => simp at hc
    | cons b rest =>
      have hb : b = c := by simpa using hc
      subst hb
      unfold deriveNameBuf specNameDerivation
      simp only [List.cons_append, List.map_cons, ucFirst]
      rw [show substByte b = b from by unfold substByte; rw [if_neg h95]]
      by_cases h32 : b = 32
      · subst h32
        norm_num
        simp [substUnderscores, cstr, List.takeWhile_cons]
      · have hc0 : (b + 224) % 256 ≠ 0 := by omega
        have hc95 : (b + 224) % 256 ≠ 95 := by omega
        simp only [substUnderscores]
        rw [if_neg hc0]
        rw [show substByte ((b + 224) % 256) = (b + 224) % 256 from by
          unfold substByte; rw [if_neg hc95]]
        rw [cstr_cons_ne _ _ hc0, cstr_cons_ne _ _ hc0]
        rw [cstr_substUnderscores, cstr_append_replicate_zero,
          cstr_map_substByte]
  · decide

/-- Witness for the amended C3 applied at the concrete id "box". -/
theorem name_derivation_amended_witness :
    cstr (deriveNameBuf (ascii "box")) = cstr (specNameDerivation (ascii "box")) :=
  name_derivation_amended.1 (ascii "box") 98 (by decide) (by decide)
    (by decide) (by decide)

theorem dispatchLoop_skip (topic : String) (pstr : List Nat)
    (pre rest : List (String × (Bool × Bool × Bool))) (i : Nat)
    (h : ∀ p ∈ pre, topic ≠ "/er/" ++ p.1 ++ "/cmd") :
    dispatchLoop topic pstr (pre ++ rest) i =
      dispatchLoop topic pstr rest (i + pre.length) := by
  induction pre generalizing i with
  | nil => simp
  | cons p ps ih =>
    obtain ⟨id, cbs⟩ := p
    have hp : topic ≠ "/er/" ++ id ++ "/cmd" := h (id, cbs) (by simp)
    simp only [List.cons_append, dispatchLoop]
    rw [if_neg hp]
    rw [show ps.append rest = ps ++ rest from rfl,
      ih (i + 1) (fun q hq => h q (List.mem_cons_of_mem _ hq))]
    have e : i + 1 + ps.length = i + (ps.length + 1) := by omega
    simp [e]

theorem dispatchLoop_none_unrecognized (topic : String) (pstr : List Nat)
    (props : List (String × (Bool × Bool × Bool))) (i : Nat)
    (h1 : pstr ≠ ascii "activate") (h2 : pstr ≠ ascii "finish")
    (h3 : pstr ≠ ascii "reset") :
    dispatchLoop topic pstr props i = none := by
  induction props generalizing i with
  | nil => rfl
  | cons p ps ih =>
    obtain ⟨id, cbs⟩ := p
    simp only [dispatchLoop]
    by_cases ht : topic = "/er/" ++ id ++ "/cmd"
    · rw [if_pos ht, if_neg h1, if_neg h2, if_neg h3]
      exact ih (i + 1)
    · rw [if_neg ht]
      exact ih (i + 1)

theorem dispatchLoop_isSome_iff (topic : String) (pstr : List Nat)
    (props : List (String × (Bool × Bool × Bool))) (i : Nat) :
    (dispatchLoop topic pstr props i).isSome = true ↔
      propCmdMatched props topic pstr := by
  induction props generalizing i with
  | nil => simp [dispatchLoop, propCmdMatched]
  | cons p ps ih =>
    obtain ⟨id, cbs⟩ := p
    by_cases ht : topic = "/er/" ++ id ++ "/cmd"
    · by_cases ha : pstr = ascii "activate"
      · constructor
        · intro _
          exact ⟨⟨(id, cbs), List.mem_cons_self _ _, ht⟩, Or.inl ha⟩
        · intro _
          simp only [dispatchLoop]
          rw [if_pos ht, if_pos ha]
          rfl
      · by_cases hf : pstr = ascii "finish"
        · constructor
          · intro _
            exact ⟨⟨(id, cbs), List.mem_cons_self _ _, ht⟩, Or.inr (Or.inl hf)⟩
          · intro _
            simp only [dispatchLoop]
            rw [if_pos ht, if_neg ha, if_pos hf]
            rfl
        · by_cases hr : pstr = ascii "reset"
          · constructor
            · intro _
              exact ⟨⟨(id, cbs), List.mem_cons_self _ _, ht⟩,
                Or.inr (Or.inr hr)⟩
            · intro _
              simp only [dispatchLoop]
              rw [if_pos ht, if_neg ha, if_neg hf, if_pos hr]
              rfl
          · have hnone := dispatchLoop_none_unrecognized topic pstr ps (i + 1)
              ha hf hr
            have hhead : dispatchLoop topic pstr ((id, cbs) :: ps) i = none := by
              simp only [dispatchLoop]
              rw [if_pos ht, if_neg ha, if_neg hf, if_neg hr]
              exact hnone
            rw [hhead]
            constructor
            · intro hx
              simp at hx
            · rintro ⟨-, hx | hx | hx⟩
              · exact absurd hx ha
              · exact absurd hx hf
              · exact absurd hx hr
    · simp only [dispatchLoop]
      rw [if_neg ht, ih (i + 1)]
      simp only [propCmdMatched, List.mem_cons]
      constructor
      · rintro ⟨⟨q, hq, hqt⟩, hrec⟩
        exact ⟨⟨q, Or.inr hq, hqt⟩, hrec⟩
      · rintro ⟨⟨q, hq, hqt⟩, hrec⟩
        rcases hq with hq | hq
        · subst hq
          exact absurd hqt ht
        · exact ⟨⟨q, hq, hqt⟩, hrec⟩

theorem memsetZero_getElem_ge (n : Nat) (l : List Nat) (i : Nat) (h : n ≤ i) :
    (memsetZero n l)[i]? = l[i]? := by
  induction l generalizing n i with
  | nil => simp [memsetZero]
  | cons b rest ih =>
    cases n with
    | zero => rfl
    | succ m =>
      cases i with
      | zero => omega
      | succ j =>
        simp only [memsetZero, List.getElem?_cons_succ]
        exact ih m j (by omega)

theorem getElem?_set_lt (l : List Nat) (i : Nat) (v : Nat) (h : i < l.length) :
    (l.set i v)[i]? = some v := by
  induction l generalizing i with
  | nil => simp at h
  | cons b rest ih =>
    cases i with
    | zero => simp
    | succ j =>
      simp only [List.set_cons_succ, List.getElem?_cons_succ]
      exact ih j (by simpa using h)

/-- Claim C7: on a prop command topic whose earlier registry entries do not
share the topic, payload "activate" with the activate slot present invokes
exactly that prop's activate callback and returns: no room-wide hook, no
fallback, and the payload buffer is only NUL-terminated. -/
theorem router_precedence_activate :
    ∀ (pre rest : List (String × (Bool × Bool × Bool))) (id : String)
      (cbs : Bool × Bool × Bool) (payload : List Nat) (len : Nat) (hs : Bool),
      (∀ p ∈ pre, ("/er/" ++ id ++ "/cmd" : String) ≠ "/er/" ++ p.1 ++ "/cmd") →
      cbs.1 = true →
      pstrOf payload len = ascii "activate" →
      dispatch (pre ++ (id, cbs) :: rest) ("/er/" ++ id ++ "/cmd") payload len hs =
        ([Ev.propCB pre.length CBKind.activate], payload.set len 0) := by
  intro pre rest id cbs payload len hs hpre hcb hpay
  have hloop : dispatchLoop ("/er/" ++ id ++ "/cmd") (pstrOf payload len)
      (pre ++ (id, cbs) :: rest) 0 =
      some [Ev.propCB pre.length CBKind.activate] := by
    rw [dispatchLoop_skip _ _ pre _ 0 hpre]
    simp only [dispatchLoop]
    simp [hpay, hcb]
  simp only [dispatch, hloop]

/-- Witness for C7 with a two-prop registry, the matching prop second. -/
theorem router_precedence_activate_witness :
    dispatch ([("x", (true, true, true))] ++ [("box", (true, false, false))])
      ("/er/" ++ "box" ++ "/cmd") (ascii "activate" ++ [0]) 8 true =
      ([Ev.propCB 1 CBKind.activate], (ascii "activate" ++ [0]).set 8 0) := by
  have h := router_precedence_activate [("x", (true, true, true))] []
    "box" (true, false, false) (ascii "activate" ++ [0]) 8 true
    (by decide) rfl (by decide)
  simpa using h

/-- Counterexample to claim C2: topic matches the prop, payload "activate" is
recognized, but the activate slot is absent; with a fallback configured the
router still invokes nothing at all, instead of falling through to the
fallback. -/
theorem absent_callback_no_fallback :
    (dispatch [("box", (false, true, true))] "/er/box/cmd"
      (ascii "activate" ++ [0]) 8 true).1 = [] := by
  decide

/-- Claim C2 as amended: on a prop command topic, an unrecognized payload
falls through past the props and the global block to the optional fallback
(invoked with the raw topic and NUL-terminated payload), never a room-wide
hook; but a recognized payload whose callback slot is absent makes the router
return immediately, invoking nothing, not even the fallback. -/
theorem router_fallthrough_amended :
    (∀ (props : List (String × (Bool × Bool × Bool))) (id : String)
       (cbs : Bool × Bool × Bool) (payload : List Nat) (len : Nat) (hs : Bool),
       (id, cbs) ∈ props →
       pstrOf payload len ≠ ascii "activate" →
       pstrOf payload len ≠ ascii "finish" →
       pstrOf payload len ≠ ascii "reset" →
       dispatch props ("/er/" ++ id ++ "/cmd") payload len hs =
         ((if hs then
             [Ev.fallback ("/er/" ++ id ++ "/cmd") (payload.set len 0) len]
           else []),
          memsetZero len (payload.set len 0))) ∧
    (∀ (pre rest : List (String × (Bool × Bool × Bool))) (id : String)
       (cbs : Bool × Bool × Bool) (payload : List Nat) (len : Nat) (hs : Bool),
       (∀ p ∈ pre, ("/er/" ++ id ++ "/cmd" : String) ≠ "/er/" ++ p.1 ++ "/cmd") →
       pstrOf payload len = ascii "activate" → cbs.1 = false →
       dispatch (pre ++ (id, cbs) :: rest) ("/er/" ++ id ++ "/cmd") payload len hs =
         ([], payload.set len 0)) := by
  constructor
  · intro props id cbs payload len hs hmem h1 h2 h3
    have hnone := dispatchLoop_none_unrecognized ("/er/" ++ id ++ "/cmd")
      (pstrOf payload len) props 0 h1 h2 h3
    simp only [dispatch, hnone]
    rw [if_neg (fun hx => topic_ne_global id hx.1),
      if_neg (fun hx => topic_ne_global id hx.1)]
  · intro pre rest id cbs payload len hs hpre hpay hcb
    have hloop : dispatchLoop ("/er/" ++ id ++ "/cmd") (pstrOf payload len)
        (pre ++ (id, cbs) :: rest) 0 = some [] := by
      rw [dispatchLoop_skip _ _ pre _ 0 hpre]
      simp only [dispatchLoop]
      simp [hpay, hcb]
    simp only [dispatch, hloop]

/-- Witness for the amended C2: an unrecognized payload reaches the
configured fallback and the payload is then zeroed. -/
theorem router_fallthrough_amended_witness :
    dispatch [("box", (true, true, true))] ("/er/" ++ "box" ++ "/cmd")
      (ascii "boom" ++ [0]) 4 true =
      ([Ev.fallback ("/er/" ++ "box" ++ "/cmd") ((ascii "boom" ++ [0]).set 4 0) 4],
       memsetZero 4 ((ascii "boom" ++ [0]).set 4 0)) := by
  have h := router_fallthrough_amended.1 [("box", (true, true, true))] "box"
    (true, true, true) (ascii "boom" ++ [0]) 4 true (by decide)
    (by decide) (by decide) (by decide)
  simpa using h

/-- Claim C10: the dispatch lambda always leaves a NUL at payload[length];
it zeroes the first length bytes exactly on the path where neither a prop
command nor a global command matched, where the optional fallback has been
handed the still-intact NUL-terminated buffer; on every matched path the
buffer keeps its payload content. -/
theorem dispatch_buffer_effects :
    ∀ (props : List (String × (Bool × Bool × Bool))) (topic : String)
      (payload : List Nat) (len : Nat) (hs : Bool),
      (len < payload.length →
        ((dispatch props topic payload len hs).2)[len]? = some 0) ∧
      (propCmdMatched props topic (pstrOf payload len) ∨
          globalCmdMatched topic (pstrOf payload len) →
        (dispatch props topic payload len hs).2 = payload.set len 0) ∧
      (¬propCmdMatched props topic (pstrOf payload len) ∧
          ¬globalCmdMatched topic (pstrOf payload len) →
        (dispatch props topic payload len hs).2 =
          memsetZero len (payload.set len 0) ∧
        (dispatch props topic payload len hs).1 =
          (if hs then [Ev.fallback topic (payload.set len 0) len] else [])) := by
  intro props topic payload len hs
  by_cases hp : propCmdMatched props topic (pstrOf payload len)
  · have hsome : (dispatchLoop topic (pstrOf payload len) props 0).isSome = true :=
      (dispatchLoop_isSome_iff topic (pstrOf payload len) props 0).mpr hp
    obtain ⟨evs, he⟩ := Option.isSome_iff_exists.mp hsome
    have hd : dispatch props topic payload len hs = (evs, payload.set len 0) := by
      simp only [dispatch, he]
    refine ⟨?_, ?_, ?_⟩
    · intro hlen
      rw [hd]
      exact getElem?_set_lt payload len 0 hlen
    · intro _
      rw [hd]
    · intro hno
      exact absurd hp hno.1
  · have hnone : dispatchLoop topic (pstrOf payload len) props 0 = none := by
      cases h : dispatchLoop topic (pstrOf payload len) props 0 with
      | none => rfl
      | some evs =>
        exact absurd ((dispatchLoop_isSome_iff topic (pstrOf payload len)
          props 0).mp (by simp [h])) hp
    by_cases hg : globalCmdMatched topic (pstrOf payload len)
    · obtain ⟨ht, hpay⟩ := hg
      have hd : ∃ ev, dispatch props topic payload len hs =
          ([ev], payload.set len 0) := by
        rcases hpay with hstart | hreset
        · refine ⟨Ev.roomStart, ?_⟩
          simp only [dispatch, hnone]
          rw [if_pos ⟨ht, hstart⟩]
        · refine ⟨Ev.roomReset, ?_⟩
          simp only [dispatch, hnone]
          rw [if_neg, if_pos ⟨ht, hreset⟩]
          rintro ⟨-, hx⟩
          rw [hreset] at hx
          exact absurd hx (by decide)
      obtain ⟨ev, hd⟩ := hd
      refine ⟨?_, ?_, ?_⟩
      · intro hlen
        rw [hd]
        exact getElem?_set_lt payload len 0 hlen
      · intro _
        rw [hd]
      · intro hno
        exact absurd ⟨ht, hpay⟩ hno.2
    · have hd : dispatch props topic payload len hs =
          ((if hs then [Ev.fallback topic (payload.set len 0) len] else []),
           memsetZero len (payload.set len 0)) := by
        simp only [dispatch, hnone]
        rw [if_neg (fun hx => hg ⟨hx.1, Or.inl hx.2⟩),
          if_neg (fun hx => hg ⟨hx.1, Or.inr hx.2⟩)]
      refine ⟨?_, ?_, ?_⟩
      · intro hlen
        rw [hd]
        show (memsetZero len (payload.set len 0))[len]? = some 0
        rw [memsetZero_getElem_ge len _ len (le_refl len)]
        exact getElem?_set_lt payload len 0 hlen
      · rintro (h | h)
        · exact absurd h hp
        · exact absurd h hg
      · intro _
        exact ⟨by rw [hd], by rw [hd]⟩

/-- Witness for C10 on a matched prop command with a spare byte after the
reported length. -/
theorem dispatch_buffer_effects_witness :
    ((dispatch [("box", (true, true, true))] "/er/box/cmd"
        (ascii "activate" ++ [7]) 8 true).2)[8]? = some 0 ∧
    (dispatch [("box", (true, true, true))] "/er/box/cmd"
        (ascii "activate" ++ [7]) 8 true).2 = (ascii "activate" ++ [7]).set 8 0 := by
  have h := dispatch_buffer_effects [("box", (true, true, true))] "/er/box/cmd"
    (ascii "activate" ++ [7]) 8 true
  refine ⟨h.1 (by decide), h.2.1 (Or.inl ?_)⟩
  exact ⟨⟨("box", (true, true, true)), by decide, by decide⟩, Or.inl (by decide)⟩

theorem hw_step_log (st : HWState) (t : Nat)
    (h : usub32 t st.last_time_stamp > 1000) :
    hardware_status st t true false = (⟨false, t⟩, -1, ["LAN cable missing"]) := by
  simp [hardware_status, h]

theorem hw_step_silent (st : HWState) (t : Nat)
    (h : ¬usub32 t st.last_time_stamp > 1000) :
    hardware_status st t true false = (⟨false, st.last_time_stamp⟩, -1, []) := by
  simp [hardware_status, h]

/-- Counterexample to claim C9: starting from a first call at time 500 with
the hardware healthy, three link-down checks at 1400, 1600 and 1700 (all
inside one rolling window) emit the diagnostic exactly once, but on the
second check, not the first. -/
theorem hw_diag_second_check_logs :
    (runHW (HWState.init 500)
        [(500, true, true), (1400, true, false), (1600, true, false),
         (1700, true, false)]).2 =
      [(1600, "LAN cable missing")] := by
  decide

/-- Claim C9 as amended: during three consecutive link-down checks inside one
rolling 1000 ms window the diagnostic is emitted at most once, and it falls
on the first check exactly when more than 1000 ms elapsed since the stored
diagnostic timestamp; otherwise the single emission may fall on a later
check. -/
theorem hw_diag_rate_limit_amended :
    ∀ (b : Bool) (s t1 t2 t3 : Nat),
      s ≤ t1 → t1 ≤ t2 → t2 ≤ t3 → t3 ≤ t1 + 1000 → t1 + 1000 < UINT32 →
      (runHW ⟨b, s⟩ [(t1, true, false), (t2, true, false),
        (t3, true, false)]).2.length ≤ 1 ∧
      (usub32 t1 s > 1000 →
        (runHW ⟨b, s⟩ [(t1, true, false), (t2, true, false),
          (t3, true, false)]).2 = [(t1, "LAN cable missing")]) := by
  intro b s t1 t2 t3 hs1 h12 h23 h31 hU
  have e1 : usub32 t1 s = t1 - s := usub32_eq _ _ hs1 (by omega)
  have e2 : usub32 t2 s = t2 - s := usub32_eq _ _ (by omega) (by omega)
  have e3 : usub32 t3 s = t3 - s := usub32_eq _ _ (by omega) (by omega)
  have e21 : usub32 t2 t1 = t2 - t1 := usub32_eq _ _ h12 (by omega)
  have e31 : usub32 t3 t1 = t3 - t1 := usub32_eq _ _ (by omega) (by omega)
  have e32 : usub32 t3 t2 = t3 - t2 := usub32_eq _ _ h23 (by omega)
  by_cases h1 : t1 - s > 1000
  · have s1 := hw_step_log ⟨b, s⟩ t1 (show usub32 t1 s > 1000 by omega)
    have s2 := hw_step_silent ⟨false, t1⟩ t2
      (show ¬usub32 t2 t1 > 1000 by omega)
    have s3 := hw_step_silent ⟨false, t1⟩ t3
      (show ¬usub32 t3 t1 > 1000 by omega)
    refine ⟨?_, fun _ => ?_⟩
    · simp [runHW, s1, s2, s3]
    · simp [runHW, s1, s2, s3]
  · have s1 := hw_step_silent ⟨b, s⟩ t1 (show ¬usub32 t1 s > 1000 by omega)
    by_cases h2 : t2 - s > 1000
    · have s2 := hw_step_log ⟨false, s⟩ t2 (show usub32 t2 s > 1000 by omega)
      have s3 := hw_step_silent ⟨false, t2⟩ t3
        (show ¬usub32 t3 t2 > 1000 by omega)
      refine ⟨?_, fun hcon => ?_⟩
      · simp [runHW, s1, s2, s3]
      · rw [e1] at hcon
        omega
    · have s2 := hw_step_silent ⟨false, s⟩ t2
        (show ¬usub32 t2 s > 1000 by omega)
      by_cases h3 : t3 - s > 1000
      · have s3 := hw_step_log ⟨false, s⟩ t3
          (show usub32 t3 s > 1000 by omega)
        refine ⟨?_, fun hcon => ?_⟩
        · simp [runHW, s1, s2, s3]
        · rw [e1] at hcon
          omega
      · have s3 := hw_step_silent ⟨false, s⟩ t3
          (show ¬usub32 t3 s > 1000 by omega)
        refine ⟨?_, fun hcon => ?_⟩
        · simp [runHW, s1, s2, s3]
        · rw [e1] at hcon
          omega

/-- Witness for the amended C9: a fresh stamp at 0 and three link-down checks
at 1500, 1600, 1700; the single diagnostic falls on the first check. -/
theorem hw_diag_rate_limit_amended_witness :
    (runHW ⟨true, 0⟩ [(1500, true, false), (1600, true, false),
      (1700, true, false)]).2 = [(1500, "LAN cable missing")] := by
  have h := hw_diag_rate_limit_amended true 0 1500 1600 1700
    (by omega) (by omega) (by omega) (by omega) (by decide)
  exact h.2 (by decide)

end DsMqtt
